import Mathlib

/-
Verification of the rgb75 HUB75 LED-matrix driver (package rgb75).

The definitions below are a shallow embedding of rgb75.go: Go `int` values
are modelled as `Int`, the `uint32` timer period field is a `Nat` reduced
modulo 2^32 exactly where the Go code can overflow, and the GPIO/timer
hardware surface (package native, not part of the verified source) appears
only through the results of its port-alignment queries and a boolean flag
recording whether the scan timer has been initialized.
-/

namespace Rgb75

/-- Default configuration settings for a Device (rgb75.go, const block). -/
def DefaultWidth : Int := 64

/-- Default total height of the matrix chain. -/
def DefaultHeight : Int := 32

/-- Default color depth of each R,G,B component. -/
def DefaultColorDepth : Nat := 4

/-- Base timer period; doubles with each bitplane index increment. -/
def bitPeriod : Nat := 2000

/-- Model of image/color RGBA: four 8-bit channels stored as naturals. -/
structure RGBA where
  r : Nat
  g : Nat
  b : Nat
  a : Nat
deriving DecidableEq

/-- The zero value color.RGBA{0, 0, 0, 0}. -/
def RGBA.zero : RGBA := { r := 0, g := 0, b := 0, a := 0 }

/-- The 8-to-16 bit channel expansion performed by color.RGBA.RGBA():
`v |= v << 8` applied to a channel value `v`. -/
def rgba16 (v : Nat) : Nat := v ||| (v <<< 8)

/-- Config holds the configuration settings for a Device (rgb75.go). Width
and Height are Go ints, ColorDepth a uint8; the remaining fields are the
unexported fields computed during New and Configure. -/
structure Config where
  Width : Int
  Height : Int
  ColorDepth : Nat
  oneAddrPort : Bool
  clkDataPort : Bool
  numAddrRows : Int
  maxHeight : Int
deriving DecidableEq

/-- A Config as built by a caller of Configure: only the exported fields
can be set, the unexported ones hold their Go zero values. -/
def mkConfig (w h : Int) (cd : Nat) : Config :=
  { Width := w, Height := h, ColorDepth := cd, oneAddrPort := false,
    clkDataPort := false, numAddrRows := 0, maxHeight := 0 }

/-- rowPlane holds the current rows and bitplane of the row-scan state
machine. frame, yPr, yUp, yLo and bit are Go ints; cyc is a uint32,
modelled as a Nat kept below 2^32 by the explicit reductions in
`increment`. -/
structure rowPlane where
  frame : Int
  yPr : Int
  yUp : Int
  yLo : Int
  bit : Int
  cyc : Nat
deriving DecidableEq

/-- Results of the native.Hub75 GetPinGroupAlignment queries made during
Configure, one field per call site: the row-address pins, the six RGB data
pins (same-port flag and bit offset of the first pin), and the CLK pin
against the RGB data pins. These model the hardware topology, which is
fixed for a given wiring. -/
structure Alignment where
  addrPortSame : Bool
  dataSame : Bool
  dataAlign : Nat
  clkDataSame : Bool
deriving DecidableEq

/-- The two error values Configure can return. -/
inductive ConfigError where
  | invalidDataPins
  | invalidHeight
deriving DecidableEq

/-- Device represents a connection to a chain of HUB75 panels. The GPIO
pin objects themselves carry no modelled state; rowPins records the length
of the row-address pin slice, and timerInit records whether
hub.InitTimer has been called (the scan engine has been started). -/
structure Device where
  cfg : Config
  buf : List (List RGBA)
  pos : rowPlane
  rowPins : Nat
  timerInit : Bool
deriving DecidableEq

/-- New returns a new HUB75 driver (rgb75.go New): default configuration,
maxHeight computed as 1 << (len(row)+1), nil framebuffer, zero scan
state. -/
def New (numRowPins : Nat) : Device :=
  { cfg := { Width := DefaultWidth, Height := DefaultHeight,
             ColorDepth := DefaultColorDepth, oneAddrPort := false,
             clkDataPort := false, numAddrRows := 0,
             maxHeight := 2 ^ (numRowPins + 1) },
    buf := [],
    pos := { frame := 0, yPr := 0, yUp := 0, yLo := 0, bit := 0, cyc := 0 },
    rowPins := numRowPins,
    timerInit := false }

/-- SetPixel modifies the internal buffer (rgb75.go SetPixel): the write
happens only when `y >= 0 && int(y) < len(d.buf)` and
`x >= 0 && int(x) < len(d.buf[y])`. -/
def SetPixel (d : Device) (x y : Int) (c : RGBA) : Device :=
  if 0 ≤ y ∧ y.toNat < d.buf.length then
    if 0 ≤ x ∧ x.toNat < (d.buf.getD y.toNat []).length then
      { d with buf := d.buf.set y.toNat ((d.buf.getD y.toNat []).set x.toNat c) }
    else d
  else d

/-- ClearDisplay sets every pixel of the framebuffer to
color.RGBA{0, 0, 0, 0} (rgb75.go ClearDisplay). -/
def ClearDisplay (d : Device) : Device :=
  { d with buf := d.buf.map (fun row => row.map (fun _ => RGBA.zero)) }

/-- rgbBit returns the n-th bit of each R, G, B component of the color in
the framebuffer at column x and row y (rgb75.go rgbBit). The Go code is
deliberately unchecked; the model reads through List.getD, and callers
establish in-range indices. -/
def rgbBit (d : Device) (x y n : Int) : Bool × Bool × Bool :=
  let c := (d.buf.getD y.toNat []).getD x.toNat RGBA.zero
  ((rgba16 c.r) &&& (1 <<< n.toNat) != 0,
   (rgba16 c.g) &&& (1 <<< n.toNat) != 0,
   (rgba16 c.b) &&& (1 <<< n.toNat) != 0)

/-- One write of the row-address control lines: a single register write of
the binary-coded row when all address pins share a port, or the list of
individual pin levels otherwise (index i holds the level of address line
i). -/
inductive RowWrite where
  | port : Int → RowWrite
  | pins : List Bool → RowWrite
deriving DecidableEq

/-- selectRow configures the row address control lines (rgb75.go
selectRow), returning the updated device and the write performed on the
address lines, if any. -/
def selectRow (d : Device) (row : Int) : Device × Option RowWrite :=
  if row ≥ d.cfg.Height then (d, none)
  else
    let row := if row ≥ d.cfg.numAddrRows then row - d.cfg.numAddrRows else row
    if row = d.pos.yPr then (d, none)
    else
      let dn : Device := { d with pos := { d.pos with yPr := row } }
      if d.cfg.oneAddrPort then (dn, some (RowWrite.port row))
      else (dn, some (RowWrite.pins ((List.range d.rowPins).map
        (fun i => decide (Int.land row (((1 <<< i : Nat)) : Int) ≠ 0)))))

/-- increment updates the active row and bitplane indices by one (rgb75.go
increment). The uint32 doubling of the timer period is reduced modulo
2^32, exactly as Go unsigned arithmetic wraps. -/
def increment (cfg : Config) (p : rowPlane) : rowPlane :=
  let bit := p.bit + 1
  let cyc := p.cyc * 2 % 2 ^ 32
  if bit ≥ (cfg.ColorDepth : Int) then
    let yUp := p.yUp + 1
    let yLo := p.yLo + 1
    if yUp ≥ cfg.numAddrRows then
      { p with bit := 0, cyc := bitPeriod, yUp := 0, yLo := cfg.numAddrRows,
               frame := p.frame + 1 }
    else
      { p with bit := 0, cyc := bitPeriod, yUp := yUp, yLo := yLo }
  else
    { p with bit := bit, cyc := cyc }

/-- initDevice models rgb75.go (*Device).initialize: all pin levels are
driven low and the shift registers cleared (no modelled state), the scan
state is seeded so that it rolls over on the first interrupt, the display
is cleared, and the scan timer is installed. It always returns nil in Go,
so the model returns the device. -/
def initDevice (d : Device) : Device :=
  let d1 : Device :=
    { d with pos := { frame := 0, yPr := 1, yUp := d.cfg.numAddrRows,
                      yLo := d.cfg.Height, bit := (d.cfg.ColorDepth : Int),
                      cyc := bitPeriod } }
  let d2 := ClearDisplay d1
  { d2 with timerInit := true }

/-- Configure initializes the device settings and allocates the display
framebuffer (rgb75.go Configure). The result is `none` when the Go code
panics (make with a negative length), and otherwise the device state at
return together with the returned error, if any. The mutation order
follows the source: width is assigned before the height check, the
oneAddrPort flag before the data-pin check, and the clkDataPort flag
after it. -/
def Configure (d : Device) (al : Alignment) (cfg : Config) :
    Option (Device × Option ConfigError) :=
  let d1 : Device := { d with cfg := { d.cfg with
    Width := if cfg.Width ≠ 0 then cfg.Width else DefaultWidth } }
  if cfg.Height ≠ 0 ∧ cfg.Height > d1.cfg.maxHeight then
    some (d1, some ConfigError.invalidHeight)
  else
    let h2 : Int := if cfg.Height ≠ 0 then cfg.Height else d1.cfg.maxHeight
    let d2 : Device := { d1 with cfg := { d1.cfg with
      Height := h2, numAddrRows := Int.tdiv h2 2 } }
    let d3 : Device := { d2 with cfg := { d2.cfg with
      ColorDepth := if cfg.ColorDepth ≠ 0 then cfg.ColorDepth
                    else DefaultColorDepth } }
    let d4 : Device := { d3 with cfg := { d3.cfg with
      oneAddrPort := al.addrPortSame } }
    if ¬ al.dataSame ∨ al.dataAlign = 0 then
      some (d4, some ConfigError.invalidDataPins)
    else
      let d5 : Device := { d4 with cfg := { d4.cfg with
        clkDataPort := al.clkDataSame } }
      if d5.cfg.Height < 0 ∨ (0 < d5.cfg.Height ∧ d5.cfg.Width < 0) then
        none
      else
        let d6 : Device := { d5 with
          buf := List.replicate d5.cfg.Height.toNat
                   (List.replicate d5.cfg.Width.toNat RGBA.zero) }
        some (initDevice d6, none)

/-- Observable outputs of one execution of the handleRow interrupt
service routine: the period programmed into the timer at the top of the
step (the display duration of the data latched during this step), the
row-address write performed (if any), the row pair and bitplane whose
data is shifted out during this step, and the shifted column data
itself (upper-row and lower-row R,G,B bits per column). -/
structure HandleOut where
  period : Nat
  rowWrite : Option RowWrite
  yUp : Int
  yLo : Int
  bit : Int
  data : List ((Bool × Bool × Bool) × (Bool × Bool × Bool))
deriving DecidableEq

/-- handleRow models rgb75.go (*Device).handleRow: reprogram the timer
with the current period, latch the previously shifted data, select the
current upper row, advance the scan state, then shift out one bit per
column for the new row pair and bitplane. -/
def handleRow (d : Device) : HandleOut × Device :=
  let period := d.pos.cyc
  let sr := selectRow d d.pos.yUp
  let d1 := sr.1
  let d2 : Device := { d1 with pos := increment d1.cfg d1.pos }
  let data := (List.range d2.cfg.Width.toNat).map
    (fun x => (rgbBit d2 (x : Int) d2.pos.yUp d2.pos.bit,
               rgbBit d2 (x : Int) d2.pos.yLo d2.pos.bit))
  ({ period := period, rowWrite := sr.2, yUp := d2.pos.yUp,
     yLo := d2.pos.yLo, bit := d2.pos.bit, data := data }, d2)

/-- Iterates of the scan-state advance step. -/
def scanIter (cfg : Config) (p : rowPlane) : Nat → rowPlane
  | 0 => p
  | n + 1 => increment cfg (scanIter cfg p n)

/-- The scan state the BCM schedule prescribes n advance steps into a
frame that started with frame counter f: the row pair is n / colorDepth,
the bitplane n % colorDepth, and the timer period the base period scaled
by 2 ^ bitplane. -/
def bcmState (cfg : Config) (f yPr : Int) (n : Nat) : rowPlane :=
  { frame := f, yPr := yPr,
    yUp := ((n / cfg.ColorDepth : Nat) : Int),
    yLo := ((n / cfg.ColorDepth : Nat) : Int) + cfg.numAddrRows,
    bit := ((n % cfg.ColorDepth : Nat) : Int),
    cyc := bitPeriod * 2 ^ (n % cfg.ColorDepth) }

/-- The Scan State invariants of the specification: the upper row is a
valid address row, the lower row sits numAddrRows below it, the bitplane
is within the color depth, and the timer period is the base period scaled
by 2 ^ bitplane. -/
def ScanInv (cfg : Config) (p : rowPlane) : Prop :=
  0 ≤ p.yUp ∧ p.yUp < cfg.numAddrRows ∧
  p.yLo = p.yUp + cfg.numAddrRows ∧
  0 ≤ p.bit ∧ p.bit < (cfg.ColorDepth : Int) ∧
  p.cyc = bitPeriod * 2 ^ p.bit.toNat

instance (cfg : Config) (p : rowPlane) : Decidable (ScanInv cfg p) := by
  unfold ScanInv
  infer_instance

/-- Preservation of the Scan State invariants by one advance step,
provided every bitplane period fits in the 32-bit timer register
(colorDepth at most 22, since the largest period used is
basePeriod * 2 ^ (colorDepth - 1) and basePeriod * 2 ^ 21 < 2 ^ 32). -/
lemma increment_ScanInv (cfg : Config) (p : rowPlane)
    (hdepth : cfg.ColorDepth ≤ 22) (h : ScanInv cfg p) :
    ScanInv cfg (increment cfg p) := by
  obtain ⟨h1, h2, h3, h4, h5, h6⟩ := h
  simp only [increment, ScanInv]
  split
  · rename_i hroll
    split
    · rename_i hframe
      dsimp only
      exact ⟨le_refl 0, by omega, by omega, le_refl 0, by omega, by simp⟩
    · rename_i hframe
      dsimp only
      exact ⟨by omega, by omega, by omega, le_refl 0, by omega, by simp⟩
  · rename_i hbit
    dsimp only
    refine ⟨h1, h2, h3, by omega, by omega, ?_⟩
    have ht : (p.bit + 1).toNat = p.bit.toNat + 1 := by omega
    rw [ht, h6]
    have hle : p.bit.toNat + 1 ≤ 21 := by omega
    have hlt : bitPeriod * 2 ^ (p.bit.toNat + 1) < 2 ^ 32 := by
      have h2le : (2 : Nat) ^ (p.bit.toNat + 1) ≤ 2 ^ 21 :=
        Nat.pow_le_pow_right (by norm_num) hle
      calc bitPeriod * 2 ^ (p.bit.toNat + 1) ≤ bitPeriod * 2 ^ 21 :=
            Nat.mul_le_mul_left _ h2le
        _ < 2 ^ 32 := by norm_num [bitPeriod]
    calc bitPeriod * 2 ^ p.bit.toNat * 2 % 2 ^ 32
        = bitPeriod * 2 ^ (p.bit.toNat + 1) % 2 ^ 32 := by ring_nf
      _ = bitPeriod * 2 ^ (p.bit.toNat + 1) := Nat.mod_eq_of_lt hlt

/-- C2 (counterexample): the invariant preservation fails as stated. At
colorDepth 23 the state with bitplane 21 and period basePeriod * 2 ^ 21
satisfies all four Scan State invariants, but the advance step doubles
the uint32 period with wrap-around, so the new period is not
basePeriod * 2 ^ 22 and the invariant is violated. -/
theorem scan_advance_invariant_overflow_cex :
    ScanInv { Width := 1, Height := 2, ColorDepth := 23, oneAddrPort := false,
              clkDataPort := false, numAddrRows := 1, maxHeight := 2 }
      { frame := 0, yPr := 1, yUp := 0, yLo := 1, bit := 21, cyc := 2000 * 2 ^ 21 } ∧
    ¬ ScanInv { Width := 1, Height := 2, ColorDepth := 23, oneAddrPort := false,
                clkDataPort := false, numAddrRows := 1, maxHeight := 2 }
      (increment
        { Width := 1, Height := 2, ColorDepth := 23, oneAddrPort := false,
          clkDataPort := false, numAddrRows := 1, maxHeight := 2 }
        { frame := 0, yPr := 1, yUp := 0, yLo := 1, bit := 21, cyc := 2000 * 2 ^ 21 }) := by
  constructor
  · decide
  · decide

/-- C2 (amended): the scan-state advance step preserves the four Scan
State invariants — upper row in range, lower row offset by numAddrRows,
bitplane within the color depth, and period equal to
basePeriod * 2 ^ bitplane — for every configured colorDepth of at most
22, so that every period fits in the 32-bit timer register. -/
theorem scan_advance_preserves_invariant (cfg : Config) (p : rowPlane)
    (hdepth : cfg.ColorDepth ≤ 22) (h : ScanInv cfg p) :
    ScanInv cfg (increment cfg p) :=
  increment_ScanInv cfg p hdepth h

/-- Witness for the amended C2 theorem at a concrete state. -/
theorem scan_advance_preserves_invariant_witness :
    (4 ≤ 22 ∧
     ScanInv { Width := 8, Height := 4, ColorDepth := 4, oneAddrPort := false,
               clkDataPort := false, numAddrRows := 2, maxHeight := 4 }
       { frame := 0, yPr := 1, yUp := 0, yLo := 2, bit := 1, cyc := 4000 }) ∧
    ScanInv { Width := 8, Height := 4, ColorDepth := 4, oneAddrPort := false,
              clkDataPort := false, numAddrRows := 2, maxHeight := 4 }
      (increment
        { Width := 8, Height := 4, ColorDepth := 4, oneAddrPort := false,
          clkDataPort := false, numAddrRows := 2, maxHeight := 4 }
        { frame := 0, yPr := 1, yUp := 0, yLo := 2, bit := 1, cyc := 4000 }) :=
  ⟨⟨by decide, by decide⟩,
   scan_advance_preserves_invariant _ _ (by decide) (by decide)⟩

set_option maxRecDepth 4096 in
/-- The bit test performed by rgbBit agrees with the n-th bit of the
stored 8-bit channel value: the 8-to-16-bit expansion of color.RGBA.RGBA
duplicates the low byte, so bits 0 through 7 are the channel value
itself. -/
lemma rgba16_testBit : ∀ v : Nat, v < 256 → ∀ n : Nat, n < 8 →
    ((rgba16 v &&& (1 <<< n)) != 0) = v.testBit n := by decide

/-- C4: for every in-range coordinate, every color with 8-bit channels,
and every bit index n below 8, SetPixel followed by rgbBit returns
exactly bit n of the R, G and B channel values. The alpha channel and
the configured colorDepth of the device are arbitrary and do not
influence the result. -/
theorem set_pixel_rgb_bit_roundtrip (d : Device) (x y n : Int) (c : RGBA)
    (hy0 : 0 ≤ y) (hy : y.toNat < d.buf.length)
    (hx0 : 0 ≤ x) (hx : x.toNat < (d.buf.getD y.toNat []).length)
    (hn0 : 0 ≤ n) (hn : n < 8)
    (hr : c.r < 256) (hg : c.g < 256) (hb : c.b < 256) :
    rgbBit (SetPixel d x y c) x y n =
      (c.r.testBit n.toNat, c.g.testBit n.toNat, c.b.testBit n.toNat) := by
  have h8 : n.toNat < 8 := by omega
  unfold SetPixel
  rw [if_pos ⟨hy0, hy⟩, if_pos ⟨hx0, hx⟩]
  unfold rgbBit
  dsimp only
  have hbuf : (d.buf.set y.toNat ((d.buf.getD y.toNat []).set x.toNat c)).getD y.toNat []
      = (d.buf.getD y.toNat []).set x.toNat c := by
    rw [List.getD_eq_getElem?_getD, List.getElem?_set_self hy, Option.getD_some]
  rw [hbuf]
  have hrow : ((d.buf.getD y.toNat []).set x.toNat c).getD x.toNat RGBA.zero = c := by
    rw [List.getD_eq_getElem?_getD, List.getElem?_set_self hx, Option.getD_some]
  rw [hrow]
  rw [rgba16_testBit c.r hr n.toNat h8, rgba16_testBit c.g hg n.toNat h8,
      rgba16_testBit c.b hb n.toNat h8]

/-- A small concretely configured device used by the witnesses: a 2 x 2
panel with an all-zero framebuffer. -/
def demoDevice : Device :=
  { cfg := { Width := 2, Height := 2, ColorDepth := 4, oneAddrPort := false,
             clkDataPort := false, numAddrRows := 1, maxHeight := 4 },
    buf := [[RGBA.zero, RGBA.zero], [RGBA.zero, RGBA.zero]],
    pos := { frame := 0, yPr := 1, yUp := 0, yLo := 1, bit := 0, cyc := 2000 },
    rowPins := 2,
    timerInit := true }

/-- Witness for the C4 round-trip theorem at a concrete pixel, color and
bit index. -/
theorem set_pixel_rgb_bit_roundtrip_witness :
    rgbBit (SetPixel demoDevice 1 0 { r := 165, g := 90, b := 255, a := 7 }) 1 0 3 =
      ((165 : Nat).testBit (3 : Int).toNat, (90 : Nat).testBit (3 : Int).toNat,
       (255 : Nat).testBit (3 : Int).toNat) :=
  set_pixel_rgb_bit_roundtrip demoDevice 1 0 3
    { r := 165, g := 90, b := 255, a := 7 }
    (by decide) (by decide) (by decide) (by decide) (by decide) (by decide)
    (by decide) (by decide) (by decide)

/-- C8: SetPixel with a coordinate outside the panel leaves the device,
and in particular every in-range pixel of the framebuffer, unchanged; the
function is total, so no error is raised. -/
theorem set_pixel_out_of_range_noop (d : Device) (w h : Nat) (x y : Int)
    (c : RGBA) (hh : d.buf.length = h) (hw : ∀ row ∈ d.buf, row.length = w)
    (hout : ¬ (0 ≤ x ∧ x < (w : Int) ∧ 0 ≤ y ∧ y < (h : Int))) :
    SetPixel d x y c = d := by
  unfold SetPixel
  by_cases hy : 0 ≤ y ∧ y.toNat < d.buf.length
  · rw [if_pos hy]
    have hrowmem : d.buf.getD y.toNat [] ∈ d.buf := by
      rw [List.getD_eq_getElem?_getD, List.getElem?_eq_getElem hy.2, Option.getD_some]
      exact List.getElem_mem hy.2
    have hrw : (d.buf.getD y.toNat []).length = w := hw _ hrowmem
    rw [if_neg]
    intro hxin
    obtain ⟨hx0, hxl⟩ := hxin
    rw [hrw] at hxl
    exact hout ⟨hx0, by omega, hy.1, by omega⟩
  · rw [if_neg hy]

/-- Witness for the C8 no-op theorem at a concrete out-of-range
coordinate with a negative component. -/
theorem set_pixel_out_of_range_noop_witness :
    SetPixel demoDevice 5 (-1) { r := 165, g := 90, b := 255, a := 7 } = demoDevice :=
  set_pixel_out_of_range_noop demoDevice 2 2 5 (-1)
    { r := 165, g := 90, b := 255, a := 7 }
    (by decide) (by decide) (by decide)

/-- An alignment query result with all six data pins on one port at a
nonzero offset (valid wiring). -/
def alignedPins : Alignment :=
  { addrPortSame := true, dataSame := true, dataAlign := 1, clkDataSame := true }

/-- An alignment query result whose data pins do not share a port
(invalid wiring). -/
def misalignedPins : Alignment :=
  { addrPortSame := true, dataSame := false, dataAlign := 0, clkDataSame := true }

/-- C3 (amended): when the requested height exceeds maxHeight, Configure
returns ErrInvalidHeight without panicking, and leaves the height, color
depth, numAddrRows, alignment flags, framebuffer, scan state and timer
state unchanged; the configured width however has already been
overwritten (with the requested width, or the default when zero) before
the height check runs, so the previous width is not preserved. -/
theorem configure_invalid_height_preserves_state (d : Device) (al : Alignment)
    (cfg : Config) (h0 : cfg.Height ≠ 0) (hbig : cfg.Height > d.cfg.maxHeight) :
    Configure d al cfg =
      some ({ d with cfg := { d.cfg with
                Width := if cfg.Width ≠ 0 then cfg.Width else DefaultWidth } },
            some ConfigError.invalidHeight) := by
  unfold Configure
  rw [if_pos ⟨h0, hbig⟩]

/-- Witness for the amended C3 theorem: a previously configured device
asked for height maxHeight + 2. -/
theorem configure_invalid_height_preserves_state_witness :
    Configure demoDevice alignedPins (mkConfig 0 6 0) =
      some ({ demoDevice with cfg := { demoDevice.cfg with
                Width := if (mkConfig 0 6 0).Width ≠ 0 then (mkConfig 0 6 0).Width
                         else DefaultWidth } },
            some ConfigError.invalidHeight) :=
  configure_invalid_height_preserves_state demoDevice alignedPins
    (mkConfig 0 6 0) (by decide) (by decide)

/-- C3 (counterexample): a device previously configured with width 32,
reconfigured with width 64 and an invalid height maxHeight + 2, returns
the invalid-height error but comes back with width 64 — the previously
active width is not preserved, contradicting the claim that the entire
previous configuration is left unchanged. -/
theorem configure_invalid_height_width_cex :
    ((Configure { New 3 with cfg := { (New 3).cfg with Width := 32 } }
        alignedPins (mkConfig 64 18 4)).map (fun p => (p.1.cfg.Width, p.2)))
      = some (64, some ConfigError.invalidHeight) ∧
    ({ New 3 with cfg := { (New 3).cfg with Width := 32 } } : Device).cfg.Width = 32 := by
  constructor
  · decide
  · decide

/-- C5 (amended): provided the height check passes, Configure returns
the distinct ErrInvalidDataPins error — leaving the engine unstarted —
exactly when the port-alignment query over the six RGB data lines
reports that they do not share one port or that the bit offset of the
first line is zero. The proviso is forced: the height check runs first,
so an invalid height masks invalid data pins. -/
theorem configure_invalid_data_pins_iff (d : Device) (al : Alignment)
    (cfg : Config) (hh : ¬ (cfg.Height ≠ 0 ∧ cfg.Height > d.cfg.maxHeight)) :
    (∃ d2, Configure d al cfg = some (d2, some ConfigError.invalidDataPins) ∧
           d2.timerInit = d.timerInit) ↔
    (al.dataSame = false ∨ al.dataAlign = 0) := by
  unfold Configure
  rw [if_neg hh]
  by_cases hd : ¬ (al.dataSame = true) ∨ al.dataAlign = 0
  · rw [if_pos hd]
    constructor
    · intro hex
      rcases hd with hd1 | hd2
      · exact Or.inl (by simpa using hd1)
      · exact Or.inr hd2
    · intro hrhs
      exact ⟨_, rfl, rfl⟩
  · rw [if_neg hd]
    constructor
    · intro hex
      obtain ⟨d2, heq, htm⟩ := hex
      exfalso
      split at heq
      all_goals simp at heq
    · intro hrhs
      exfalso
      rcases hrhs with h1 | h2
      · exact hd (Or.inl (by simp [h1]))
      · exact hd (Or.inr h2)

/-- Witness for the amended C5 theorem: misaligned data pins with a
valid height yield ErrInvalidDataPins without starting the engine. -/
theorem configure_invalid_data_pins_iff_witness :
    (¬ (((mkConfig 0 4 0).Height ≠ 0 ∧
         (mkConfig 0 4 0).Height > (New 2).cfg.maxHeight))) ∧
    ((∃ d2, Configure (New 2) misalignedPins (mkConfig 0 4 0) =
              some (d2, some ConfigError.invalidDataPins) ∧
            d2.timerInit = (New 2).timerInit) ↔
     (misalignedPins.dataSame = false ∨ misalignedPins.dataAlign = 0)) :=
  ⟨by decide,
   configure_invalid_data_pins_iff (New 2) misalignedPins (mkConfig 0 4 0)
     (by decide)⟩

/-- C5 (counterexample): with misaligned data pins and a height above
maxHeight, the port-alignment query reports a bad topology, yet
Configure returns ErrInvalidHeight, not ErrInvalidDataPins — the claimed
equivalence fails without the height proviso. -/
theorem configure_error_precedence_cex :
    misalignedPins.dataSame = false ∧
    ((Configure (New 3) misalignedPins (mkConfig 0 18 0)).map (fun p => p.2))
      = some (some ConfigError.invalidHeight) ∧
    ConfigError.invalidHeight ≠ ConfigError.invalidDataPins := by
  refine ⟨by decide, by decide, by decide⟩

/-- Configure reads its argument only through the height check and the
three default-substituted fields: two configs agreeing on those agree on
the whole result. -/
lemma Configure_congr (d : Device) (al : Alignment) (c1 c2 : Config)
    (hchk : (c1.Height ≠ 0 ∧ c1.Height > d.cfg.maxHeight) ↔
            (c2.Height ≠ 0 ∧ c2.Height > d.cfg.maxHeight))
    (hW : (if c1.Width ≠ 0 then c1.Width else DefaultWidth) =
          (if c2.Width ≠ 0 then c2.Width else DefaultWidth))
    (hH : (if c1.Height ≠ 0 then c1.Height else d.cfg.maxHeight) =
          (if c2.Height ≠ 0 then c2.Height else d.cfg.maxHeight))
    (hCD : (if c1.ColorDepth ≠ 0 then c1.ColorDepth else DefaultColorDepth) =
           (if c2.ColorDepth ≠ 0 then c2.ColorDepth else DefaultColorDepth)) :
    Configure d al c1 = Configure d al c2 := by
  simp only [Configure]
  rw [hW, hH, hCD]
  exact if_congr hchk rfl rfl

/-- C9: for every config passed to Configure, each unspecified (zero)
field is independently and silently replaced by its documented default
and causes no error: a zero width makes Configure behave exactly as if
the default width 64 had been passed, a zero colorDepth exactly as if
the default depth 4 had been passed, and a zero height exactly as if
maxHeight had been passed — in particular a zero height can never
produce the invalid-height error — and any device state Configure
returns carries the defaults in place of the zero fields (the colorDepth
substitution is observable only when the height check passes, because
the invalid-height return happens before it). -/
theorem configure_zero_fields_defaults (d : Device) (al : Alignment) (cfg : Config) :
    (cfg.Width = 0 →
       Configure d al cfg = Configure d al { cfg with Width := DefaultWidth }) ∧
    (cfg.ColorDepth = 0 →
       Configure d al cfg = Configure d al { cfg with ColorDepth := DefaultColorDepth }) ∧
    (cfg.Height = 0 →
       Configure d al cfg = Configure d al { cfg with Height := d.cfg.maxHeight } ∧
       ∀ d2, Configure d al cfg ≠ some (d2, some ConfigError.invalidHeight)) ∧
    (∀ d2 e, Configure d al cfg = some (d2, e) →
       (cfg.Width = 0 → d2.cfg.Width = DefaultWidth) ∧
       (cfg.Height = 0 → d2.cfg.Height = d.cfg.maxHeight) ∧
       (e ≠ some ConfigError.invalidHeight → cfg.ColorDepth = 0 →
          d2.cfg.ColorDepth = DefaultColorDepth)) := by
  refine ⟨?_, ?_, ?_, ?_⟩
  · intro hw
    exact Configure_congr d al cfg { cfg with Width := DefaultWidth }
      Iff.rfl (by rw [hw]; norm_num [DefaultWidth]) rfl rfl
  · intro hcd
    exact Configure_congr d al cfg { cfg with ColorDepth := DefaultColorDepth }
      Iff.rfl rfl rfl (by rw [hcd]; norm_num [DefaultColorDepth])
  · intro hh
    constructor
    · refine Configure_congr d al cfg { cfg with Height := d.cfg.maxHeight }
        ?_ rfl ?_ rfl
      · rw [hh]
        simp
      · rw [hh]
        simp
    · intro d2 hcontra
      unfold Configure at hcontra
      rw [hh] at hcontra
      rw [if_neg (by simp)] at hcontra
      repeat' split at hcontra
      all_goals simp at hcontra
  · intro d2 e h
    unfold Configure at h
    by_cases hc1 : cfg.Height ≠ 0 ∧ cfg.Height > d.cfg.maxHeight
    · rw [if_pos hc1] at h
      have h1 := Option.some.inj h
      have hd2 : _ = d2 := congrArg Prod.fst h1
      have he : _ = e := congrArg Prod.snd h1
      subst hd2
      refine ⟨?_, ?_, ?_⟩
      · intro hw
        simp [hw]
      · intro hh
        exact absurd hh hc1.1
      · intro hne hcd
        exact absurd he.symm hne
    · rw [if_neg hc1] at h
      by_cases hc2 : ¬ (al.dataSame = true) ∨ al.dataAlign = 0
      · rw [if_pos hc2] at h
        have h1 := Option.some.inj h
        have hd2 : _ = d2 := congrArg Prod.fst h1
        subst hd2
        refine ⟨?_, ?_, ?_⟩
        · intro hw
          simp [hw]
        · intro hh
          simp [hh]
        · intro hne hcd
          simp [hcd]
      · rw [if_neg hc2] at h
        set W : Int := if cfg.Width ≠ 0 then cfg.Width else DefaultWidth with hW
        set H : Int := if cfg.Height ≠ 0 then cfg.Height else d.cfg.maxHeight with hH
        by_cases hc3 : H < 0 ∨ (0 < H ∧ W < 0)
        · rw [if_pos hc3] at h
          exact absurd h (by simp)
        · rw [if_neg hc3] at h
          have h1 := Option.some.inj h
          have hd2 : _ = d2 := congrArg Prod.fst h1
          subst hd2
          refine ⟨?_, ?_, ?_⟩
          · intro hw
            show W = DefaultWidth
            rw [hW]
            simp [hw]
          · intro hh
            show H = d.cfg.maxHeight
            rw [hH]
            simp [hh]
          · intro hne hcd
            show (if cfg.ColorDepth ≠ 0 then cfg.ColorDepth else DefaultColorDepth) = _
            simp [hcd]

/-- Witness for the C9 defaults theorem at a concrete partially-zero
config: width and colorDepth unspecified, height given as 4. -/
theorem configure_zero_fields_defaults_witness :
    ((mkConfig 0 4 0).Width = 0 →
       Configure (New 2) alignedPins (mkConfig 0 4 0) =
         Configure (New 2) alignedPins { mkConfig 0 4 0 with Width := DefaultWidth }) ∧
    ((mkConfig 0 4 0).ColorDepth = 0 →
       Configure (New 2) alignedPins (mkConfig 0 4 0) =
         Configure (New 2) alignedPins
           { mkConfig 0 4 0 with ColorDepth := DefaultColorDepth }) ∧
    ((mkConfig 0 4 0).Height = 0 →
       Configure (New 2) alignedPins (mkConfig 0 4 0) =
         Configure (New 2) alignedPins
           { mkConfig 0 4 0 with Height := (New 2).cfg.maxHeight } ∧
       ∀ d2, Configure (New 2) alignedPins (mkConfig 0 4 0) ≠
         some (d2, some ConfigError.invalidHeight)) ∧
    (∀ d2 e, Configure (New 2) alignedPins (mkConfig 0 4 0) = some (d2, e) →
       ((mkConfig 0 4 0).Width = 0 → d2.cfg.Width = DefaultWidth) ∧
       ((mkConfig 0 4 0).Height = 0 → d2.cfg.Height = (New 2).cfg.maxHeight) ∧
       (e ≠ some ConfigError.invalidHeight → (mkConfig 0 4 0).ColorDepth = 0 →
          d2.cfg.ColorDepth = DefaultColorDepth)) :=
  configure_zero_fields_defaults (New 2) alignedPins (mkConfig 0 4 0)

/-- C10: after every successful Configure call the framebuffer has
exactly height rows of width pixels each, and every pixel is the fully
transparent black color. -/
theorem configure_clears_framebuffer (d : Device) (al : Alignment) (cfg : Config)
    (d2 : Device) (h : Configure d al cfg = some (d2, none)) :
    ((d2.buf.length : Int) = d2.cfg.Height) ∧
    ∀ row ∈ d2.buf, ((row.length : Int) = d2.cfg.Width ∧ ∀ px ∈ row, px = RGBA.zero) := by
  unfold Configure at h
  by_cases hc1 : cfg.Height ≠ 0 ∧ cfg.Height > d.cfg.maxHeight
  · rw [if_pos hc1] at h
    simp at h
  · rw [if_neg hc1] at h
    by_cases hc2 : ¬ (al.dataSame = true) ∨ al.dataAlign = 0
    · rw [if_pos hc2] at h
      simp at h
    · rw [if_neg hc2] at h
      set W : Int := if cfg.Width ≠ 0 then cfg.Width else DefaultWidth with hW
      set H : Int := if cfg.Height ≠ 0 then cfg.Height else d.cfg.maxHeight with hH
      by_cases hc3 : H < 0 ∨ (0 < H ∧ W < 0)
      · rw [if_pos hc3] at h
        simp at h
      · rw [if_neg hc3] at h
        have hd2 : _ = d2 := congrArg Prod.fst (Option.some.inj h)
        subst hd2
        simp only [initDevice, ClearDisplay, List.map_replicate, List.length_replicate]
        constructor
        · omega
        · intro row hrow
          have hpos : 0 < H.toNat := by
            by_contra hz
            rw [Nat.eq_zero_of_not_pos hz] at hrow
            simp at hrow
          have hWnn : 0 ≤ W := by omega
          have hrow2 := List.eq_of_mem_replicate hrow
          subst hrow2
          constructor
          · simp
            omega
          · intro px hpx
            exact List.eq_of_mem_replicate hpx

/-- The device produced by a concrete successful Configure call, used by
the C10 witness. -/
def demoConfigured : Device :=
  { cfg := { Width := 2, Height := 4, ColorDepth := 3, oneAddrPort := true,
             clkDataPort := true, numAddrRows := 2, maxHeight := 8 },
    buf := List.replicate 4 (List.replicate 2 RGBA.zero),
    pos := { frame := 0, yPr := 1, yUp := 2, yLo := 4, bit := 3, cyc := 2000 },
    rowPins := 2,
    timerInit := true }

/-- Witness for the C10 theorem on a concrete successful Configure
call. -/
theorem configure_clears_framebuffer_witness :
    Configure (New 2) alignedPins (mkConfig 2 4 3) = some (demoConfigured, none) ∧
    (((demoConfigured.buf.length : Int) = demoConfigured.cfg.Height) ∧
     ∀ row ∈ demoConfigured.buf,
       ((row.length : Int) = demoConfigured.cfg.Width ∧
        ∀ px ∈ row, px = RGBA.zero)) :=
  ⟨by decide,
   configure_clears_framebuffer (New 2) alignedPins (mkConfig 2 4 3)
     demoConfigured (by decide)⟩

/-- C6 (counterexample): for the stock configuration with four
row-address lines and height 64, the previous-row value seeded by
initialization is 1, which lies inside [0, numAddrRows) — it is a value
a real row index can equal, contradicting the claim. -/
theorem init_prev_row_cex :
    (initDevice { New 4 with cfg := { (New 4).cfg with Height := 64, numAddrRows := 32 } }).pos.yPr = 1 ∧
    0 ≤ (initDevice { New 4 with cfg := { (New 4).cfg with Height := 64, numAddrRows := 32 } }).pos.yPr ∧
    (initDevice { New 4 with cfg := { (New 4).cfg with Height := 64, numAddrRows := 32 } }).pos.yPr <
      (initDevice { New 4 with cfg := { (New 4).cfg with Height := 64, numAddrRows := 32 } }).cfg.numAddrRows := by
  refine ⟨by decide, by decide, by decide⟩

/-- C6 (amended): initialization seeds prevRow to 1 — a real row index
when numAddrRows exceeds 1 — while seeding upperRow to numAddrRows,
whose normalized row address is 0; since 0 differs from 1, the very
first timer interrupt is still guaranteed to re-latch the row address
and drive row 0, beginning a full row/bitplane/latch cycle. -/
theorem init_first_interrupt_relatches (d : Device)
    (hlt : d.cfg.numAddrRows < d.cfg.Height) :
    (initDevice d).pos.yPr = 1 ∧
    (selectRow (initDevice d) ((initDevice d).pos.yUp)).2 ≠ none ∧
    (selectRow (initDevice d) ((initDevice d).pos.yUp)).1.pos.yPr = 0 := by
  have hyUp : (initDevice d).pos.yUp = d.cfg.numAddrRows := rfl
  have hyPr : (initDevice d).pos.yPr = 1 := rfl
  have hcfgH : (initDevice d).cfg.Height = d.cfg.Height := rfl
  have hcfgN : (initDevice d).cfg.numAddrRows = d.cfg.numAddrRows := rfl
  refine ⟨hyPr, ?_, ?_⟩
  all_goals
    unfold selectRow
    rw [hyUp, hcfgH, hcfgN, if_neg (by omega)]
    simp only
    rw [if_pos (le_refl d.cfg.numAddrRows), sub_self, hyPr]
    rw [if_neg (by decide : ¬ ((0 : Int) = 1))]
    split
  · simp
  · simp
  · rfl
  · rfl

/-- Witness for the amended C6 theorem on a concrete device. -/
theorem init_first_interrupt_relatches_witness :
    (initDevice demoDevice).pos.yPr = 1 ∧
    (selectRow (initDevice demoDevice) ((initDevice demoDevice).pos.yUp)).2 ≠ none ∧
    (selectRow (initDevice demoDevice) ((initDevice demoDevice).pos.yUp)).1.pos.yPr = 0 :=
  init_first_interrupt_relatches demoDevice (by decide)

/-- C7: for every row index below the matrix height, selectRow writes
the row-address lines exactly when the normalized row (the index itself,
or the index minus numAddrRows for a lower-half row) differs from the
previously driven address; a write updates prevRow to the normalized row
and, on the per-pin path, drives address line i high exactly when bit i
of the normalized row is set; otherwise nothing is written and prevRow
is unchanged. Rows numAddrRows apart (both halves in range) select the
same address. -/
theorem select_row_spec (d : Device) (r : Int) (h : r < d.cfg.Height) :
    ((if r ≥ d.cfg.numAddrRows then r - d.cfg.numAddrRows else r) = d.pos.yPr →
       selectRow d r = (d, none)) ∧
    ((if r ≥ d.cfg.numAddrRows then r - d.cfg.numAddrRows else r) ≠ d.pos.yPr →
       selectRow d r =
         ({ d with pos := { d.pos with
             yPr := if r ≥ d.cfg.numAddrRows then r - d.cfg.numAddrRows else r } },
          some (if d.cfg.oneAddrPort then
                  RowWrite.port (if r ≥ d.cfg.numAddrRows then r - d.cfg.numAddrRows else r)
                else
                  RowWrite.pins ((List.range d.rowPins).map (fun i =>
                    decide (Int.land
                      (if r ≥ d.cfg.numAddrRows then r - d.cfg.numAddrRows else r)
                      (((1 <<< i : Nat)) : Int) ≠ 0)))))) ∧
    (d.cfg.numAddrRows ≤ r → r - d.cfg.numAddrRows < d.cfg.numAddrRows →
       selectRow d r = selectRow d (r - d.cfg.numAddrRows)) := by
  have hng : ¬ (r ≥ d.cfg.Height) := by omega
  refine ⟨?_, ?_, ?_⟩
  · intro hsame
    unfold selectRow
    rw [if_neg hng]
    simp only
    rw [if_pos hsame]
  · intro hdiff
    unfold selectRow
    rw [if_neg hng]
    simp only
    rw [if_neg hdiff]
    split
    · rfl
    · rfl
  · intro hlo hhi
    have hpos : 0 < d.cfg.numAddrRows := by omega
    have hng2 : ¬ (r - d.cfg.numAddrRows ≥ d.cfg.Height) := by omega
    have hn2 : ¬ (r - d.cfg.numAddrRows ≥ d.cfg.numAddrRows) := by omega
    have hn1 : r ≥ d.cfg.numAddrRows := hlo
    unfold selectRow
    rw [if_neg hng, if_neg hng2]
    simp only
    rw [if_pos hn1, if_neg hn2]

/-- Witness for the C7 selectRow theorem at a concrete lower-half row. -/
theorem select_row_spec_witness :
    (((if (1 : Int) ≥ demoDevice.cfg.numAddrRows
        then (1 : Int) - demoDevice.cfg.numAddrRows else 1) = demoDevice.pos.yPr →
       selectRow demoDevice 1 = (demoDevice, none)) ∧
     ((if (1 : Int) ≥ demoDevice.cfg.numAddrRows
        then (1 : Int) - demoDevice.cfg.numAddrRows else 1) ≠ demoDevice.pos.yPr →
       selectRow demoDevice 1 =
         ({ demoDevice with pos := { demoDevice.pos with
             yPr := if (1 : Int) ≥ demoDevice.cfg.numAddrRows
                    then (1 : Int) - demoDevice.cfg.numAddrRows else 1 } },
          some (if demoDevice.cfg.oneAddrPort then
                  RowWrite.port (if (1 : Int) ≥ demoDevice.cfg.numAddrRows
                                 then (1 : Int) - demoDevice.cfg.numAddrRows else 1)
                else
                  RowWrite.pins ((List.range demoDevice.rowPins).map (fun i =>
                    decide (Int.land
                      (if (1 : Int) ≥ demoDevice.cfg.numAddrRows
                       then (1 : Int) - demoDevice.cfg.numAddrRows else 1)
                      (((1 <<< i : Nat)) : Int) ≠ 0)))))) ∧
     (demoDevice.cfg.numAddrRows ≤ 1 →
        (1 : Int) - demoDevice.cfg.numAddrRows < demoDevice.cfg.numAddrRows →
        selectRow demoDevice 1 = selectRow demoDevice (1 - demoDevice.cfg.numAddrRows))) :=
  select_row_spec demoDevice 1 (by decide)

/-- Doubling a bitplane period below the register limit is exact. -/
lemma cyc_double (r dep : Nat) (hr : r + 1 < dep) (hdep : dep ≤ 22) :
    bitPeriod * 2 ^ r * 2 % 2 ^ 32 = bitPeriod * 2 ^ (r + 1) := by
  have hle : r + 1 ≤ 21 := by omega
  have h2le : (2 : Nat) ^ (r + 1) ≤ 2 ^ 21 := Nat.pow_le_pow_right (by norm_num) hle
  have hlt : bitPeriod * 2 ^ (r + 1) < 2 ^ 32 := by
    calc bitPeriod * 2 ^ (r + 1) ≤ bitPeriod * 2 ^ 21 := Nat.mul_le_mul_left _ h2le
      _ < 2 ^ 32 := by norm_num [bitPeriod]
  calc bitPeriod * 2 ^ r * 2 % 2 ^ 32
      = bitPeriod * 2 ^ (r + 1) % 2 ^ 32 := by ring_nf
    _ = bitPeriod * 2 ^ (r + 1) := Nat.mod_eq_of_lt hlt

/-- One advance step taken strictly inside a frame moves the BCM schedule
from position n to position n + 1. -/
lemma bcm_step (cfg : Config) (f yPr : Int) (N n : Nat)
    (hd1 : 1 ≤ cfg.ColorDepth) (hd22 : cfg.ColorDepth ≤ 22)
    (hNA : cfg.numAddrRows = (N : Int))
    (h : n + 1 < N * cfg.ColorDepth) :
    increment cfg (bcmState cfg f yPr n) = bcmState cfg f yPr (n + 1) := by
  have hdpos : 0 < cfg.ColorDepth := hd1
  have hdm : cfg.ColorDepth * (n / cfg.ColorDepth) + n % cfg.ColorDepth = n :=
    Nat.div_add_mod n cfg.ColorDepth
  have hrlt : n % cfg.ColorDepth < cfg.ColorDepth := Nat.mod_lt _ hdpos
  by_cases hcase : n % cfg.ColorDepth + 1 < cfg.ColorDepth
  · have hqm : (n + 1) / cfg.ColorDepth = n / cfg.ColorDepth ∧
               (n + 1) % cfg.ColorDepth = n % cfg.ColorDepth + 1 :=
      (Nat.div_mod_unique hdpos).mpr ⟨by omega, hcase⟩
    have hblt : ((n % cfg.ColorDepth : Nat) : Int) + 1 < (cfg.ColorDepth : Int) := by
      exact_mod_cast hcase
    simp only [increment, bcmState]
    rw [if_neg (not_le.mpr hblt)]
    rw [hqm.1, hqm.2, cyc_double (n % cfg.ColorDepth) cfg.ColorDepth hcase hd22]
    simp only [rowPlane.mk.injEq]
    push_cast
    simp
  · have hreq : n % cfg.ColorDepth + 1 = cfg.ColorDepth := by omega
    have hstep : cfg.ColorDepth * (n / cfg.ColorDepth + 1)
        = cfg.ColorDepth * (n / cfg.ColorDepth) + cfg.ColorDepth := by ring
    have hq1 : (n + 1) / cfg.ColorDepth = n / cfg.ColorDepth + 1 ∧
               (n + 1) % cfg.ColorDepth = 0 :=
      (Nat.div_mod_unique hdpos).mpr ⟨by omega, hdpos⟩
    have hn1 : n + 1 = cfg.ColorDepth * (n / cfg.ColorDepth + 1) := by omega
    have hqlt : n / cfg.ColorDepth + 1 < N := by
      have hlt2 : cfg.ColorDepth * (n / cfg.ColorDepth + 1) < N * cfg.ColorDepth :=
        hn1 ▸ h
      rw [Nat.mul_comm N cfg.ColorDepth] at hlt2
      exact Nat.lt_of_mul_lt_mul_left hlt2
    have hbge : ((n % cfg.ColorDepth : Nat) : Int) + 1 ≥ (cfg.ColorDepth : Int) := by
      exact_mod_cast le_of_eq hreq.symm
    have hrow : ¬ (((n / cfg.ColorDepth : Nat) : Int) + 1 ≥ cfg.numAddrRows) := by
      rw [hNA]
      have hc : ((n / cfg.ColorDepth : Nat) : Int) + 1 < (N : Int) := by
        exact_mod_cast hqlt
      exact not_le.mpr hc
    simp only [increment, bcmState]
    rw [if_pos hbge]
    rw [if_neg hrow]
    rw [hq1.1, hq1.2]
    simp only [rowPlane.mk.injEq, pow_zero, Nat.mul_one, Nat.cast_zero]
    push_cast
    simp
    ring

/-- The last advance step of a frame resets the schedule to row 0,
bitplane 0, base period, and increments the frame counter. -/
lemma bcm_wrap (cfg : Config) (f yPr : Int) (N : Nat)
    (hd1 : 1 ≤ cfg.ColorDepth) (hN1 : 1 ≤ N)
    (hNA : cfg.numAddrRows = (N : Int)) :
    increment cfg (bcmState cfg f yPr (N * cfg.ColorDepth - 1)) =
      bcmState cfg (f + 1) yPr 0 := by
  have hdpos : 0 < cfg.ColorDepth := hd1
  have hprod : cfg.ColorDepth * (N - 1) + cfg.ColorDepth = N * cfg.ColorDepth := by
    cases N with
    | zero => omega
    | succ m =>
      have hm : cfg.ColorDepth * (m + 1 - 1) = cfg.ColorDepth * m := by rfl
      rw [hm, Nat.mul_comm, Nat.succ_mul]
  have hqm : (N * cfg.ColorDepth - 1) / cfg.ColorDepth = N - 1 ∧
             (N * cfg.ColorDepth - 1) % cfg.ColorDepth = cfg.ColorDepth - 1 :=
    (Nat.div_mod_unique hdpos).mpr ⟨by omega, by omega⟩
  have hbge : (((N * cfg.ColorDepth - 1) % cfg.ColorDepth : Nat) : Int) + 1 ≥
      (cfg.ColorDepth : Int) := by
    rw [hqm.2]
    have hc : cfg.ColorDepth - 1 + 1 = cfg.ColorDepth := by omega
    exact_mod_cast le_of_eq hc.symm
  have hrow : (((N * cfg.ColorDepth - 1) / cfg.ColorDepth : Nat) : Int) + 1 ≥
      cfg.numAddrRows := by
    rw [hqm.1, hNA]
    have hc : N - 1 + 1 = N := by omega
    exact_mod_cast le_of_eq hc.symm
  simp only [increment, bcmState]
  rw [if_pos hbge, if_pos hrow]
  simp only [rowPlane.mk.injEq, Nat.zero_div, Nat.zero_mod, Nat.cast_zero,
    pow_zero, Nat.mul_one]
  rw [hNA]
  simp

/-- Inside a frame, the iterated advance step follows the BCM schedule
exactly. -/
lemma scan_iter_bcm (cfg : Config) (f yPr : Int) (N : Nat)
    (hd1 : 1 ≤ cfg.ColorDepth) (hd22 : cfg.ColorDepth ≤ 22)
    (hNA : cfg.numAddrRows = (N : Int)) :
    ∀ n, n < N * cfg.ColorDepth →
      scanIter cfg (bcmState cfg f yPr 0) n = bcmState cfg f yPr n := by
  intro n
  induction n with
  | zero => intro hlt; rfl
  | succ m ih =>
    intro hlt
    have hm : m < N * cfg.ColorDepth := by omega
    show increment cfg (scanIter cfg (bcmState cfg f yPr 0) m) = _
    rw [ih hm]
    exact bcm_step cfg f yPr N m hd1 hd22 hNA hlt

/-- After exactly numAddrRows * colorDepth advance steps the schedule is
back at its start with the frame counter incremented once. -/
lemma scan_iter_frame (cfg : Config) (f yPr : Int) (N : Nat)
    (hd1 : 1 ≤ cfg.ColorDepth) (hd22 : cfg.ColorDepth ≤ 22) (hN1 : 1 ≤ N)
    (hNA : cfg.numAddrRows = (N : Int)) :
    scanIter cfg (bcmState cfg f yPr 0) (N * cfg.ColorDepth) =
      bcmState cfg (f + 1) yPr 0 := by
  have hpos : 1 ≤ N * cfg.ColorDepth := Nat.mul_le_mul hN1 hd1
  have hsucc : N * cfg.ColorDepth = (N * cfg.ColorDepth - 1) + 1 := by omega
  rw [hsucc]
  show increment cfg (scanIter cfg (bcmState cfg f yPr 0) (N * cfg.ColorDepth - 1)) = _
  rw [scan_iter_bcm cfg f yPr N hd1 hd22 hNA (N * cfg.ColorDepth - 1) (by omega)]
  exact bcm_wrap cfg f yPr N hd1 hN1 hNA

/-- Auxiliary form of the geometric period sum. -/
lemma bcm_period_sum_aux (dep : Nat) :
    (Finset.range dep).sum (fun k => bitPeriod * 2 ^ k) + bitPeriod =
      2 ^ dep * bitPeriod := by
  induction dep with
  | zero => simp
  | succ m ih =>
    rw [Finset.sum_range_succ, pow_succ]
    calc (Finset.range m).sum (fun k => bitPeriod * 2 ^ k) + bitPeriod * 2 ^ m + bitPeriod
        = ((Finset.range m).sum (fun k => bitPeriod * 2 ^ k) + bitPeriod) + bitPeriod * 2 ^ m := by
          ring
      _ = 2 ^ m * bitPeriod + bitPeriod * 2 ^ m := by rw [ih]
      _ = 2 ^ m * 2 * bitPeriod := by ring

/-- The per-row-pair active time over one frame is the geometric sum of
the bitplane periods. -/
lemma bcm_period_sum (dep : Nat) :
    (Finset.range dep).sum (fun k => bitPeriod * 2 ^ k) = (2 ^ dep - 1) * bitPeriod := by
  have haux := bcm_period_sum_aux dep
  rw [Nat.sub_mul, Nat.one_mul]
  omega

/-- The schedule positions visiting row-pair r form the interval of
length colorDepth starting at r * colorDepth. -/
lemma visits_Ico (N dep r : Nat) (hdp : 0 < dep) (hr : r < N) :
    (Finset.range (N * dep)).filter (fun n => n / dep = r) =
      Finset.Ico (r * dep) (r * dep + dep) := by
  ext n
  simp only [Finset.mem_filter, Finset.mem_range, Finset.mem_Ico]
  constructor
  · rintro ⟨hlt, hdiv⟩
    constructor
    · rw [← hdiv]
      exact Nat.div_mul_le_self n dep
    · have hdm : dep * (n / dep) + n % dep = n := Nat.div_add_mod n dep
      have hmod : n % dep < dep := Nat.mod_lt _ hdp
      rw [← hdiv]
      calc n = n / dep * dep + n % dep := by rw [Nat.mul_comm (n / dep) dep]; omega
        _ < n / dep * dep + dep := by omega
  · rintro ⟨hge, hlt⟩
    have hup : n < (r + 1) * dep := by rw [Nat.succ_mul]; omega
    constructor
    · calc n < (r + 1) * dep := hup
        _ ≤ N * dep := Nat.mul_le_mul_right dep hr
    · exact Nat.div_eq_of_lt_le hge hup

/-- Each row-pair index below numAddrRows is hit exactly colorDepth
times per frame. -/
lemma visits_card (N dep r : Nat) (hdp : 0 < dep) (hr : r < N) :
    ((Finset.range (N * dep)).filter (fun n => n / dep = r)).card = dep := by
  rw [visits_Ico N dep r hdp hr, Nat.card_Ico, Nat.add_sub_cancel_left]

/-- selectRow changes at most the previously-driven row field of the
scan state. -/
lemma selectRow_shape (d : Device) (r : Int) :
    ∃ z, (selectRow d r).1 = { d with pos := { d.pos with yPr := z } } := by
  simp only [selectRow]
  repeat' split
  all_goals first
    | exact ⟨d.pos.yPr, rfl⟩
    | exact ⟨_, rfl⟩

/-- One-step latch pipeline of the interrupt handler: the bitplane whose
data is shifted out during a step is the post-advance bitplane, the
invariant still holds after the step, and the timer period programmed at
the top of the following step — the duration for which that data is
displayed — is the base period scaled by two to that bitplane. -/
lemma handleRow_pipeline (dev : Device)
    (h22 : dev.cfg.ColorDepth ≤ 22) (hinv : ScanInv dev.cfg dev.pos) :
    (handleRow dev).1.bit = (handleRow dev).2.pos.bit ∧
    ScanInv dev.cfg ((handleRow dev).2.pos) ∧
    (handleRow (handleRow dev).2).1.period =
      bitPeriod * 2 ^ (((handleRow dev).1.bit).toNat) := by
  obtain ⟨z, hz⟩ := selectRow_shape dev dev.pos.yUp
  have hpos2 : (handleRow dev).2.pos =
      increment dev.cfg { dev.pos with yPr := z } := by
    show increment (selectRow dev dev.pos.yUp).1.cfg (selectRow dev dev.pos.yUp).1.pos = _
    rw [hz]
  have hbit : (handleRow dev).1.bit = (handleRow dev).2.pos.bit := rfl
  have hinv2 : ScanInv dev.cfg ((handleRow dev).2.pos) := by
    rw [hpos2]
    exact increment_ScanInv dev.cfg { dev.pos with yPr := z } h22 hinv
  refine ⟨hbit, hinv2, ?_⟩
  have hper : (handleRow (handleRow dev).2).1.period = (handleRow dev).2.pos.cyc := rfl
  rw [hper, hbit]
  exact hinv2.2.2.2.2.2

/-- C1 (amended): for every configured colorDepth d with 1 ≤ d ≤ 22 (so
all periods fit the 32-bit timer), starting from the frame-start state,
(i) the visit r * d + k of the advance trajectory sits at row-pair r,
bitplane k, with period basePeriod * 2 ^ k and an unchanged frame
counter, (ii) each row-pair below numAddrRows is visited exactly d times
before the frame counter increments, (iii) the frame counter increments
exactly at step numAddrRows * d, returning to the frame-start state,
(iv) the periods over one row-pair sum to (2 ^ d - 1) * basePeriod, and
(v) across the one-step latch pipeline of handleRow, the data shifted in
a step carries the post-advance bitplane and the next step programs the
timer with basePeriod * 2 ^ that bitplane — the duration for which the
shifted data is displayed. -/
theorem bcm_frame_schedule (cfg : Config) (N : Nat) (f yPr : Int)
    (hd1 : 1 ≤ cfg.ColorDepth) (hd22 : cfg.ColorDepth ≤ 22)
    (hN1 : 1 ≤ N) (hNA : cfg.numAddrRows = (N : Int)) :
    (∀ r k, r < N → k < cfg.ColorDepth →
       (scanIter cfg (bcmState cfg f yPr 0) (r * cfg.ColorDepth + k)).yUp = (r : Int) ∧
       (scanIter cfg (bcmState cfg f yPr 0) (r * cfg.ColorDepth + k)).bit = (k : Int) ∧
       (scanIter cfg (bcmState cfg f yPr 0) (r * cfg.ColorDepth + k)).cyc = bitPeriod * 2 ^ k ∧
       (scanIter cfg (bcmState cfg f yPr 0) (r * cfg.ColorDepth + k)).frame = f) ∧
    (∀ r, r < N →
       ((Finset.range (N * cfg.ColorDepth)).filter
          (fun n => (scanIter cfg (bcmState cfg f yPr 0) n).yUp = (r : Int))).card =
         cfg.ColorDepth) ∧
    scanIter cfg (bcmState cfg f yPr 0) (N * cfg.ColorDepth) = bcmState cfg (f + 1) yPr 0 ∧
    (Finset.range cfg.ColorDepth).sum (fun k => bitPeriod * 2 ^ k) =
      (2 ^ cfg.ColorDepth - 1) * bitPeriod ∧
    (∀ dev : Device, dev.cfg = cfg → ScanInv cfg dev.pos →
       (handleRow dev).1.bit = (handleRow dev).2.pos.bit ∧
       (handleRow (handleRow dev).2).1.period =
         bitPeriod * 2 ^ (((handleRow dev).1.bit).toNat)) := by
  have hdpos : 0 < cfg.ColorDepth := hd1
  refine ⟨?_, ?_, ?_, ?_, ?_⟩
  · intro r k hr hk
    have hn : r * cfg.ColorDepth + k < N * cfg.ColorDepth := by
      calc r * cfg.ColorDepth + k < r * cfg.ColorDepth + cfg.ColorDepth :=
            Nat.add_lt_add_left hk _
        _ = (r + 1) * cfg.ColorDepth := (Nat.succ_mul r cfg.ColorDepth).symm
        _ ≤ N * cfg.ColorDepth := Nat.mul_le_mul_right _ hr
    rw [scan_iter_bcm cfg f yPr N hd1 hd22 hNA _ hn]
    have hdiv : (r * cfg.ColorDepth + k) / cfg.ColorDepth = r := by
      rw [Nat.mul_comm r cfg.ColorDepth, Nat.mul_add_div hdpos,
        Nat.div_eq_of_lt hk, Nat.add_zero]
    have hmod : (r * cfg.ColorDepth + k) % cfg.ColorDepth = k := by
      rw [Nat.mul_comm r cfg.ColorDepth, Nat.mul_add_mod, Nat.mod_eq_of_lt hk]
    simp [bcmState, hdiv, hmod]
  · intro r hr
    have hcong : (Finset.range (N * cfg.ColorDepth)).filter
          (fun n => (scanIter cfg (bcmState cfg f yPr 0) n).yUp = (r : Int)) =
        (Finset.range (N * cfg.ColorDepth)).filter (fun n => n / cfg.ColorDepth = r) := by
      apply Finset.filter_congr
      intro n hn
      rw [Finset.mem_range] at hn
      rw [scan_iter_bcm cfg f yPr N hd1 hd22 hNA n hn]
      simp only [bcmState, Nat.cast_inj]
    rw [hcong, visits_card N cfg.ColorDepth r hdpos hr]
  · exact scan_iter_frame cfg f yPr N hd1 hd22 hN1 hNA
  · exact bcm_period_sum cfg.ColorDepth
  · intro dev hcfg hinv
    subst hcfg
    have h := handleRow_pipeline dev hd22 hinv
    exact ⟨h.1, h.2.2⟩

/-- A concrete configuration with two row pairs and color depth 2, used
by the C1 witness. -/
def bcmDemoCfg : Config :=
  { Width := 2, Height := 4, ColorDepth := 2, oneAddrPort := false,
    clkDataPort := false, numAddrRows := 2, maxHeight := 4 }

/-- Witness for the amended C1 theorem at color depth 2 with two row
pairs. -/
theorem bcm_frame_schedule_witness :
    (1 ≤ bcmDemoCfg.ColorDepth ∧ bcmDemoCfg.ColorDepth ≤ 22 ∧ 1 ≤ 2 ∧
     bcmDemoCfg.numAddrRows = ((2 : Nat) : Int)) ∧
    ((∀ r k, r < 2 → k < bcmDemoCfg.ColorDepth →
       (scanIter bcmDemoCfg (bcmState bcmDemoCfg 0 1 0) (r * bcmDemoCfg.ColorDepth + k)).yUp = (r : Int) ∧
       (scanIter bcmDemoCfg (bcmState bcmDemoCfg 0 1 0) (r * bcmDemoCfg.ColorDepth + k)).bit = (k : Int) ∧
       (scanIter bcmDemoCfg (bcmState bcmDemoCfg 0 1 0) (r * bcmDemoCfg.ColorDepth + k)).cyc = bitPeriod * 2 ^ k ∧
       (scanIter bcmDemoCfg (bcmState bcmDemoCfg 0 1 0) (r * bcmDemoCfg.ColorDepth + k)).frame = 0) ∧
    (∀ r : Nat, r < 2 →
       ((Finset.range (2 * bcmDemoCfg.ColorDepth)).filter
          (fun n => (scanIter bcmDemoCfg (bcmState bcmDemoCfg 0 1 0) n).yUp = (r : Int))).card =
         bcmDemoCfg.ColorDepth) ∧
    scanIter bcmDemoCfg (bcmState bcmDemoCfg 0 1 0) (2 * bcmDemoCfg.ColorDepth) =
      bcmState bcmDemoCfg (0 + 1) 1 0 ∧
    (Finset.range bcmDemoCfg.ColorDepth).sum (fun k => bitPeriod * 2 ^ k) =
      (2 ^ bcmDemoCfg.ColorDepth - 1) * bitPeriod ∧
    (∀ dev : Device, dev.cfg = bcmDemoCfg → ScanInv bcmDemoCfg dev.pos →
       (handleRow dev).1.bit = (handleRow dev).2.pos.bit ∧
       (handleRow (handleRow dev).2).1.period =
         bitPeriod * 2 ^ (((handleRow dev).1.bit).toNat))) :=
  ⟨⟨by decide, by decide, by decide, by decide⟩,
   bcm_frame_schedule bcmDemoCfg 2 0 1 (by decide) (by decide) (by decide) (by decide)⟩

/-- The out-of-range color depth configuration exhibiting the uint32
period overflow. -/
def overflowCfg : Config :=
  { Width := 1, Height := 2, ColorDepth := 23, oneAddrPort := false,
    clkDataPort := false, numAddrRows := 1, maxHeight := 2 }

set_option maxRecDepth 100000 in
/-- C1 (counterexample): with configured colorDepth 23 the schedule is
wrong as claimed for every configured depth: still within the first
frame (frame counter 0), the visit of row-pair 0 at bitplane 22 runs
with a period different from basePeriod * 2 ^ 22, because the uint32
doubling wrapped. -/
theorem bcm_schedule_overflow_cex :
    (scanIter overflowCfg (bcmState overflowCfg 0 1 0) 22).frame = 0 ∧
    (scanIter overflowCfg (bcmState overflowCfg 0 1 0) 22).yUp = 0 ∧
    (scanIter overflowCfg (bcmState overflowCfg 0 1 0) 22).bit = 22 ∧
    (scanIter overflowCfg (bcmState overflowCfg 0 1 0) 22).cyc ≠ bitPeriod * 2 ^ 22 := by
  refine ⟨by decide, by decide, by decide, by decide⟩

end Rgb75
